import Mathlib

/-!
# Verification of the task scheduler in `src/queue.js` (nsfwjs-api)

This file gives a shallow embedding of the `QueueManager` class from
`src/queue.js` and proves the specified properties of the scheduler:
the concurrency cap, the counter-balance invariant, priority ordering of
admissions, timeout handling, `clear`, `resetStats`, `getStats`,
`getHealth` and the idle-wait operations.

JavaScript numbers holding the counters are modelled as `Int` (the
`running` counter can in fact go negative, see the timeout theorems);
the queue is a Lean list of queue items; the asynchronous interleaving
of task settlements and timer callbacks is modelled by an explicit event
alphabet and a step function, with all of the synchronous bookkeeping of
one callback (counter updates followed by `processQueue`) forming a
single atomic step, exactly as in the single-threaded JS event loop.
-/

namespace NsfwQueue

/-- One queued task, as built in `addTask`: the `queueItem` object holds the
task closure, the resolve/reject callbacks of the returned promise, a
timeout, a priority and a `startTime` (the `startTime` field is recorded but
never read anywhere in the source, so it is omitted here).  The `id` is the
submission sequence number; it stands for the identity of the task closure
and of its promise. -/
structure QueueItem where
  id : Nat
  priority : Int
  timeout : Nat
  deriving Repr, DecidableEq

/-- The `this.stats` record of `QueueManager`: `{total, completed, failed,
pending}`. -/
structure Stats where
  total : Int
  completed : Int
  failed : Int
  pending : Int
  deriving Repr, DecidableEq

/-- The execution status of a task that has been admitted by `processQueue`
and whose bookkeeping is not finished yet.

* `armedRunning` — the operation is executing and its timeout timer is armed
  (the state right after lines 56–69 of `queue.js`).
* `errTimerPending` — the operation settled with a failure, the `catch` block
  ran, but the timer was never cleared (there is no `clearTimeout` in the
  `catch` path), so the timer callback is still pending.
* `timedOutRunning` — the timer fired first; the scheduler already did its
  timeout bookkeeping but the underlying operation is still executing and
  its `await` will still return. -/
inductive RunStatus where
  | armedRunning
  | errTimerPending
  | timedOutRunning
  deriving Repr, DecidableEq

/-- A settlement of a task's promise, as observed by the caller:
`resolved` for `item.resolve(result)`, `rejected msg` for
`item.reject(new Error(msg))`. A promise settles at most once; later
resolve/reject calls are no-ops and are not logged. -/
inductive Settlement where
  | resolved
  | rejected (msg : String)
  deriving Repr, DecidableEq

/-- The whole state of a `QueueManager` instance, together with the pending
asynchronous callbacks (`inflight`) and the promise settlements delivered so
far (`log`).  `nextId` numbers submissions. -/
structure QueueState where
  concurrency : Nat
  defaultTimeout : Nat
  queue : List QueueItem
  running : Int
  stats : Stats
  inflight : List (Nat × RunStatus)
  log : List (Nat × Settlement)
  nextId : Nat
  deriving Repr, DecidableEq

/-- JavaScript `x || d` on an optional numeric config/option field: an absent
value and the (falsy) value `0` both fall back to the default `d`. -/
def jsOrNat (x : Option Nat) (d : Nat) : Nat :=
  match x with
  | some v => if v = 0 then d else v
  | none => d

/-- The constructor: `concurrency = config.concurrency || 5`,
`timeout = config.timeout || 30000`, empty queue, zero counters. -/
def initState (concurrency timeout : Option Nat) : QueueState :=
  { concurrency := jsOrNat concurrency 5
    defaultTimeout := jsOrNat timeout 30000
    queue := []
    running := 0
    stats := { total := 0, completed := 0, failed := 0, pending := 0 }
    inflight := []
    log := []
    nextId := 0 }

/-- One insertion step of the stable descending sort: the new element goes
after every element of strictly higher priority and before the first element
of lower-or-equal priority it has not already passed. -/
def insertDescStable (x : QueueItem) : List QueueItem → List QueueItem
  | [] => [x]
  | y :: ys => if x.priority < y.priority then y :: insertDescStable x ys else x :: y :: ys

/-- `this.queue.sort((a, b) => b.priority - a.priority)`: a stable sort by
priority, highest first.  `Array.prototype.sort` is stable (ES2019), so it is
modelled by a stable insertion sort: equal-priority elements keep their
relative order. -/
def sortByPriorityDesc : List QueueItem → List QueueItem
  | [] => []
  | x :: xs => insertDescStable x (sortByPriorityDesc xs)

/-- `processQueue` (lines 48–57 of `queue.js`), up to the point where the
admitted task's execution begins: if a slot is free and the queue is
non-empty, shift the head, increment `running`, decrement `stats.pending`,
and start the task with its timer armed (recorded in `inflight`). -/
def processQueue (s : QueueState) : QueueState :=
  if s.running ≥ (s.concurrency : Int) ∨ s.queue = [] then s
  else
    match s.queue with
    | [] => s
    | item :: rest =>
      { s with
        queue := rest
        running := s.running + 1
        stats := { s.stats with pending := s.stats.pending - 1 }
        inflight := s.inflight ++ [(item.id, RunStatus.armedRunning)] }

/-- `addTask(task, options)`: increment `total` and `pending`, build the
queue item (`priority = options.priority || 0`,
`timeout = options.timeout || this.timeout`), push it, re-sort the queue by
priority, then run `processQueue`. -/
def addTask (s : QueueState) (priority : Option Int) (timeout : Option Nat) : QueueState :=
  processQueue
    { s with
      stats := { s.stats with total := s.stats.total + 1, pending := s.stats.pending + 1 }
      queue := sortByPriorityDesc (s.queue ++
        [{ id := s.nextId
           priority := priority.getD 0
           timeout := jsOrNat timeout s.defaultTimeout }])
      nextId := s.nextId + 1 }

/-- Replace the status of the in-flight entry for `id`. -/
def setStatus (id : Nat) (st : RunStatus) : List (Nat × RunStatus) → List (Nat × RunStatus)
  | [] => []
  | (i, r) :: rest => if i = id then (i, st) :: rest else (i, r) :: setStatus id st rest

/-- Drop the in-flight entry for `id` (its bookkeeping is finished). -/
def removeInflight (id : Nat) : List (Nat × RunStatus) → List (Nat × RunStatus)
  | [] => []
  | (i, r) :: rest => if i = id then rest else (i, r) :: removeInflight id rest

/-- The asynchronous events that drive a `QueueManager`: a submission, a
settlement of a running operation (success or failure) while its timer is
armed, a timer firing while the operation is still running, the late
settlement of an operation whose timer already fired, and the firing of the
timer that `processQueue`'s `catch` block failed to clear. -/
inductive Event where
  | submit (priority : Option Int) (timeout : Option Nat)
  | settleOk (id : Nat)
  | settleErr (id : Nat)
  | timerFire (id : Nat)
  | lateSettleOk (id : Nat)
  | lateSettleErr (id : Nat)
  | orphanTimerFire (id : Nat)
  deriving Repr, DecidableEq

/-- One atomic step of the scheduler.  Each case is the synchronous body of
the corresponding callback in `queue.js`; `none` means the event is not
enabled in state `s` (no such callback is pending).

* `settleOk` — lines 69–78: `await item.task()` returns, `clearTimeout`,
  `completed++`, `running--`, `resolve`, `processQueue()`.
* `settleErr` — lines 80–87: the `catch` block: `failed++`, `running--`,
  `reject`, `processQueue()`.  Note that the `catch` block does **not**
  clear the timer, so the entry stays in flight as `errTimerPending`.
* `timerFire` — lines 61–66: the timer callback: `failed++`, `running--`,
  `reject(new Error('Task timeout'))`, `processQueue()`; the operation keeps
  running (`timedOutRunning`).
* `lateSettleOk` / `lateSettleErr` — the operation of a timed-out task
  finally settles: the same success/catch code runs a second time
  (`completed++` or `failed++`, `running--`, `processQueue()`); the resolve
  or reject hits an already-settled promise, so nothing is logged.
* `orphanTimerFire` — the uncleared timer of a task that already failed
  fires: `failed++`, `running--`, a reject on a settled promise,
  `processQueue()`. -/
def step (s : QueueState) (e : Event) : Option QueueState :=
  match e with
  | Event.submit p t => some (addTask s p t)
  | Event.settleOk id =>
    if (id, RunStatus.armedRunning) ∈ s.inflight then
      some (processQueue
        { s with
          stats := { s.stats with completed := s.stats.completed + 1 }
          running := s.running - 1
          inflight := removeInflight id s.inflight
          log := s.log ++ [(id, Settlement.resolved)] })
    else none
  | Event.settleErr id =>
    if (id, RunStatus.armedRunning) ∈ s.inflight then
      some (processQueue
        { s with
          stats := { s.stats with failed := s.stats.failed + 1 }
          running := s.running - 1
          inflight := setStatus id RunStatus.errTimerPending s.inflight
          log := s.log ++ [(id, Settlement.rejected "task error")] })
    else none
  | Event.timerFire id =>
    if (id, RunStatus.armedRunning) ∈ s.inflight then
      some (processQueue
        { s with
          stats := { s.stats with failed := s.stats.failed + 1 }
          running := s.running - 1
          inflight := setStatus id RunStatus.timedOutRunning s.inflight
          log := s.log ++ [(id, Settlement.rejected "Task timeout")] })
    else none
  | Event.lateSettleOk id =>
    if (id, RunStatus.timedOutRunning) ∈ s.inflight then
      some (processQueue
        { s with
          stats := { s.stats with completed := s.stats.completed + 1 }
          running := s.running - 1
          inflight := removeInflight id s.inflight })
    else none
  | Event.lateSettleErr id =>
    if (id, RunStatus.timedOutRunning) ∈ s.inflight then
      some (processQueue
        { s with
          stats := { s.stats with failed := s.stats.failed + 1 }
          running := s.running - 1
          inflight := removeInflight id s.inflight })
    else none
  | Event.orphanTimerFire id =>
    if (id, RunStatus.errTimerPending) ∈ s.inflight then
      some (processQueue
        { s with
          stats := { s.stats with failed := s.stats.failed + 1 }
          running := s.running - 1
          inflight := removeInflight id s.inflight })
    else none

/-- Run a sequence of events from a state; `none` if some event was not
enabled where it occurred. -/
def run (s : QueueState) : List Event → Option QueueState
  | [] => some s
  | e :: es =>
    match step s e with
    | some s1 => run s1 es
    | none => none

/-- The snapshot returned by `getStats()` (lines 94–102):
`{...this.stats, concurrency, size: queue.length, pending: this.running,
isPaused: false}`.  The spread's own `pending` field is overridden with the
`running` counter, `size` is the queue length, and there is no `running` or
`concurrencyLimit` field. -/
structure StatsSnapshot where
  total : Int
  completed : Int
  failed : Int
  pending : Int
  concurrency : Nat
  size : Nat
  isPaused : Bool
  deriving Repr, DecidableEq

/-- `getStats()`. -/
def getStats (s : QueueState) : StatsSnapshot :=
  { total := s.stats.total
    completed := s.stats.completed
    failed := s.stats.failed
    concurrency := s.concurrency
    size := s.queue.length
    pending := s.running
    isPaused := false }

/-- `getRecommendations(stats)` (lines 195–211).  The JS comparison
`stats.failed > stats.completed * 0.1` is binary floating point; on the
integer counters it agrees with the exact comparison
`10 * failed > completed` used here. -/
def getRecommendations (s : QueueState) (st : StatsSnapshot) : List String :=
  (if 10 * st.failed > st.completed then
    ["High failure rate detected. Consider investigating error causes."]
  else []) ++
  (if st.pending > (s.concurrency : Int) * 3 then
    ["Queue backlog is high. Consider increasing concurrency or optimizing tasks."]
  else []) ++
  (if st.completed > 0 ∧ st.failed = 0 then
    ["Queue is performing well with no failures."]
  else [])

/-- The value returned by `getHealth()`. -/
structure Health where
  isHealthy : Bool
  stats : StatsSnapshot
  recommendations : List String
  deriving Repr, DecidableEq

/-- `getHealth()` (lines 179–188): `isHealthy = stats.pending <
this.concurrency * 2`, where `stats` is the `getStats()` snapshot — so the
`pending` being compared is the `running` counter, not the queue length. -/
def getHealth (s : QueueState) : Health :=
  let st := getStats s
  { isHealthy := decide (st.pending < (s.concurrency : Int) * 2)
    stats := st
    recommendations := getRecommendations s st }

/-- `clear()` (lines 123–130): reject every queued item with
`Error('Queue cleared')`, empty the queue, set `stats.pending` to 0. -/
def clear (s : QueueState) : QueueState :=
  { s with
    log := s.log ++ s.queue.map (fun it => (it.id, Settlement.rejected "Queue cleared"))
    queue := []
    stats := { s.stats with pending := 0 } }

/-- `resetStats()` (lines 166–173): replace `this.stats` with fresh zero
counters; everything else (queue, `running`, pending callbacks, promises) is
untouched. -/
def resetStats (s : QueueState) : QueueState :=
  { s with stats := { total := 0, completed := 0, failed := 0, pending := 0 } }

/-- The idle test of `onIdle`'s `checkIdle` (line 139):
`this.running === 0 && this.queue.length === 0`. -/
def isIdle (s : QueueState) : Bool :=
  s.running == 0 && s.queue.isEmpty

/-- `onIdle()` (lines 136–147): `checkIdle` runs immediately and then every
100 ms.  Given the list of states observed at the successive polls, the
promise resolves at the first poll that finds the scheduler idle; index `k`
means resolution at time `100 * k` ms.  `none`: every observed poll found the
scheduler busy, so the promise is still pending. -/
def firstIdlePoll : List QueueState → Option Nat
  | [] => none
  | s :: rest => if isIdle s then some 0 else (firstIdlePoll rest).map (· + 1)

/-- `onIdleWithTimeout(timeout)` (lines 154–161): `Promise.race` of
`onIdle()` against a rejection with `Error('Queue idle timeout')` after
`timeout` ms.  The race is decided by whichever comes first: an idle poll at
time `100 * k < timeout`, or the timeout. -/
def onIdleWithTimeout (polls : List QueueState) (timeout : Nat) : Except String Nat :=
  match firstIdlePoll polls with
  | some k => if 100 * k < timeout then Except.ok (100 * k) else Except.error "Queue idle timeout"
  | none => Except.error "Queue idle timeout"

/-! ## The admission order and the sortedness of the queue -/

/-- The strict admission order on queue items: `a` is admitted before `b`
when `a` has strictly higher priority, or equal priority and an earlier
submission number. -/
def keyLt (a b : QueueItem) : Prop :=
  b.priority < a.priority ∨ (a.priority = b.priority ∧ a.id < b.id)

/-- Non-strict priority-descending order. -/
def prioGe (a b : QueueItem) : Prop := b.priority ≤ a.priority

theorem keyLt_prioGe {a b : QueueItem} (h : keyLt a b) : prioGe a b := by
  rcases h with h | ⟨h, _⟩
  · exact le_of_lt h
  · exact le_of_eq h.symm

/-- Insertion of a fresh element after all elements of greater-or-equal
priority.  Pushing a new element at the tail and stably re-sorting a
descending-sorted list has exactly this effect
(`sortByPriorityDesc_append_single`). -/
def insertTail (x : QueueItem) : List QueueItem → List QueueItem
  | [] => [x]
  | y :: ys => if x.priority ≤ y.priority then y :: insertTail x ys else x :: y :: ys

theorem mem_insertTail {x z : QueueItem} :
    ∀ {q : List QueueItem}, z ∈ insertTail x q ↔ z = x ∨ z ∈ q := by
  intro q
  induction q with
  | nil => simp [insertTail]
  | cons y ys ih =>
    by_cases h : x.priority ≤ y.priority
    all_goals simp [insertTail, h, ih]
    all_goals tauto

theorem length_insertTail (x : QueueItem) :
    ∀ (q : List QueueItem), (insertTail x q).length = q.length + 1 := by
  intro q
  induction q with
  | nil => simp [insertTail]
  | cons y ys ih =>
    by_cases h : x.priority ≤ y.priority <;> simp [insertTail, h, ih]

theorem insertTail_pairwise {x : QueueItem} :
    ∀ {q : List QueueItem}, q.Pairwise keyLt → (∀ y ∈ q, y.id < x.id) →
      (insertTail x q).Pairwise keyLt := by
  intro q
  induction q with
  | nil =>
    intro _ _
    simp [insertTail]
  | cons y ys ih =>
    intro hq hid
    rw [List.pairwise_cons] at hq
    obtain ⟨hy, hys⟩ := hq
    by_cases h : x.priority ≤ y.priority
    · rw [show insertTail x (y :: ys) = y :: insertTail x ys from by simp [insertTail, h]]
      rw [List.pairwise_cons]
      constructor
      · intro z hz
        rcases mem_insertTail.mp hz with rfl | hz
        · rcases lt_or_eq_of_le h with hlt | heq
          · exact Or.inl hlt
          · exact Or.inr ⟨heq.symm, hid y (by simp)⟩
        · exact hy z hz
      · exact ih hys (fun z hz => hid z (by simp [hz]))
    · rw [show insertTail x (y :: ys) = x :: y :: ys from by simp [insertTail, h]]
      rw [List.pairwise_cons]
      refine ⟨?_, List.pairwise_cons.mpr ⟨hy, hys⟩⟩
      intro z hz
      rcases List.mem_cons.mp hz with rfl | hz
      · exact Or.inl (by omega)
      · have := keyLt_prioGe (hy z hz)
        unfold prioGe at this
        exact Or.inl (by omega)

theorem insertDescStable_cons_of_le {a y : QueueItem} {ys : List QueueItem}
    (h : y.priority ≤ a.priority) : insertDescStable a (y :: ys) = a :: y :: ys := by
  simp [insertDescStable, not_lt.mpr h]

/-- Pushing a fresh element at the tail of a priority-descending list and
stably re-sorting (what `addTask` does) is insertion after all
greater-or-equal priorities: the stable tie-break keeps earlier submissions
of equal priority in front. -/
theorem sortByPriorityDesc_append_single (x : QueueItem) :
    ∀ {q : List QueueItem}, q.Pairwise prioGe →
      sortByPriorityDesc (q ++ [x]) = insertTail x q := by
  intro q
  induction q with
  | nil =>
    intro _
    simp [sortByPriorityDesc, insertDescStable, insertTail]
  | cons a q' ih =>
    intro hq
    rw [List.pairwise_cons] at hq
    obtain ⟨ha, hq'⟩ := hq
    have lhs : sortByPriorityDesc ((a :: q') ++ [x]) = insertDescStable a (insertTail x q') := by
      simp only [List.cons_append, sortByPriorityDesc, List.append_eq]
      rw [ih hq']
    rw [lhs]
    by_cases hax : x.priority ≤ a.priority
    · rw [show insertTail x (a :: q') = a :: insertTail x q' from by simp [insertTail, hax]]
      cases q' with
      | nil => simp [insertTail, insertDescStable, not_lt.mpr hax]
      | cons b q'' =>
        have hba : b.priority ≤ a.priority := ha b (by simp)
        by_cases hbx : x.priority ≤ b.priority
        · rw [show insertTail x (b :: q'') = b :: insertTail x q'' from by simp [insertTail, hbx]]
          exact insertDescStable_cons_of_le hba
        · rw [show insertTail x (b :: q'') = x :: b :: q'' from by simp [insertTail, hbx]]
          exact insertDescStable_cons_of_le hax
    · push_neg at hax
      rw [show insertTail x (a :: q') = x :: a :: q' from by simp [insertTail, not_le.mpr hax]]
      cases q' with
      | nil => simp [insertTail, insertDescStable, hax]
      | cons b q'' =>
        have hba : b.priority ≤ a.priority := ha b (by simp)
        have hbx : ¬ x.priority ≤ b.priority := by omega
        rw [show insertTail x (b :: q'') = x :: b :: q'' from by simp [insertTail, hbx]]
        rw [show insertDescStable a (x :: b :: q'') = x :: insertDescStable a (b :: q'')
          from by simp [insertDescStable, hax]]
        rw [insertDescStable_cons_of_le hba]

/-! ## The reachability invariant -/

/-- The invariant of every reachable scheduler state: the concurrency limit
is positive (the `|| 5` default turns `0` into `5`), the `running` counter
never exceeds it, the counters balance, `stats.pending` equals the queue
length, the queue is in admission order, and every queued item carries a
submission number below `nextId`. -/
structure WF (s : QueueState) : Prop where
  conc_pos : 1 ≤ s.concurrency
  run_le : s.running ≤ (s.concurrency : Int)
  balance : s.stats.total = s.stats.completed + s.stats.failed + s.running + s.stats.pending
  pending_len : s.stats.pending = (s.queue.length : Int)
  sorted : s.queue.Pairwise keyLt
  ids_lt : ∀ it ∈ s.queue, it.id < s.nextId

theorem jsOrNat_pos (x : Option Nat) (d : Nat) (hd : 1 ≤ d) : 1 ≤ jsOrNat x d := by
  cases x with
  | none => simpa [jsOrNat] using hd
  | some v =>
    simp only [jsOrNat]
    split <;> omega

theorem initState_wf (c t : Option Nat) : WF (initState c t) := by
  refine ⟨jsOrNat_pos c 5 (by omega), ?_, ?_, ?_, ?_, ?_⟩ <;> simp [initState]

theorem processQueue_of_stuck {s : QueueState}
    (h : s.running ≥ (s.concurrency : Int) ∨ s.queue = []) : processQueue s = s := by
  unfold processQueue
  rw [if_pos h]

theorem processQueue_admits_head {s : QueueState} {item : QueueItem} {rest : List QueueItem}
    (hq : s.queue = item :: rest) (hr : s.running < (s.concurrency : Int)) :
    processQueue s =
      { s with
        queue := rest
        running := s.running + 1
        stats := { s.stats with pending := s.stats.pending - 1 }
        inflight := s.inflight ++ [(item.id, RunStatus.armedRunning)] } := by
  have hcond : ¬ (s.running ≥ (s.concurrency : Int) ∨ s.queue = []) := by
    rw [hq]
    push_neg
    exact ⟨hr, by simp⟩
  unfold processQueue
  rw [if_neg hcond, hq]

theorem processQueue_wf {s : QueueState} (h : WF s) : WF (processQueue s) := by
  by_cases hc : s.running ≥ (s.concurrency : Int) ∨ s.queue = []
  · rw [processQueue_of_stuck hc]
    exact h
  · push_neg at hc
    obtain ⟨hr, hne⟩ := hc
    cases hq : s.queue with
    | nil => exact absurd hq hne
    | cons item rest =>
      rw [processQueue_admits_head hq hr]
      have hp := h.pending_len
      rw [hq] at hp
      refine ⟨h.conc_pos, ?_, ?_, ?_, ?_, ?_⟩
      · show s.running + 1 ≤ (s.concurrency : Int)
        omega
      · show s.stats.total = s.stats.completed + s.stats.failed + (s.running + 1) +
          (s.stats.pending - 1)
        have := h.balance
        omega
      · show s.stats.pending - 1 = (rest.length : Int)
        simp only [List.length_cons] at hp
        push_cast at hp ⊢
        omega
      · show rest.Pairwise keyLt
        have hs := h.sorted
        rw [hq] at hs
        exact (List.pairwise_cons.mp hs).2
      · show ∀ it ∈ rest, it.id < s.nextId
        intro it hit
        exact h.ids_lt it (by rw [hq]; exact List.mem_cons_of_mem _ hit)

theorem addTask_wf {s : QueueState} (h : WF s) (p : Option Int) (t : Option Nat) :
    WF (addTask s p t) := by
  unfold addTask
  rw [sortByPriorityDesc_append_single _ (h.sorted.imp keyLt_prioGe)]
  apply processQueue_wf
  refine ⟨h.conc_pos, h.run_le, ?_, ?_, ?_, ?_⟩
  · show s.stats.total + 1 = s.stats.completed + s.stats.failed + s.running +
      (s.stats.pending + 1)
    have := h.balance
    omega
  · show s.stats.pending + 1 = ((insertTail _ s.queue).length : Int)
    rw [length_insertTail]
    have := h.pending_len
    push_cast
    omega
  · exact insertTail_pairwise h.sorted (fun y hy => h.ids_lt y hy)
  · intro it hit
    rcases mem_insertTail.mp hit with rfl | hit
    · show s.nextId < s.nextId + 1
      omega
    · exact Nat.lt_succ_of_lt (h.ids_lt it hit)

/-- All six asynchronous callbacks have the same bookkeeping shape: one of
`completed`/`failed` is incremented, `running` is decremented, and
`processQueue` runs; all of them preserve the invariant. -/
theorem callback_wf {s : QueueState} (h : WF s) (st2 : Stats)
    (infl : List (Nat × RunStatus)) (lg : List (Nat × Settlement))
    (htotal : st2.total = s.stats.total)
    (hsum : st2.completed + st2.failed = s.stats.completed + s.stats.failed + 1)
    (hpend : st2.pending = s.stats.pending) :
    WF (processQueue
      { s with stats := st2, running := s.running - 1, inflight := infl, log := lg }) := by
  apply processQueue_wf
  refine ⟨h.conc_pos, ?_, ?_, ?_, h.sorted, h.ids_lt⟩
  · show s.running - 1 ≤ (s.concurrency : Int)
    have := h.run_le
    omega
  · show st2.total = st2.completed + st2.failed + (s.running - 1) + st2.pending
    have := h.balance
    omega
  · show st2.pending = (s.queue.length : Int)
    rw [hpend]
    exact h.pending_len

theorem step_wf {s s' : QueueState} {e : Event} (h : WF s) (hs : step s e = some s') :
    WF s' := by
  cases e with
  | submit p t =>
    simp only [step, Option.some.injEq] at hs
    exact hs ▸ addTask_wf h p t
  | settleOk id =>
    simp only [step] at hs
    split at hs
    · simp only [Option.some.injEq] at hs
      subst hs
      exact callback_wf h _ _ _ rfl
        (by show s.stats.completed + 1 + s.stats.failed = _; omega) rfl
    · cases hs
  | settleErr id =>
    simp only [step] at hs
    split at hs
    · simp only [Option.some.injEq] at hs
      subst hs
      exact callback_wf h _ _ _ rfl
        (by show s.stats.completed + (s.stats.failed + 1) = _; omega) rfl
    · cases hs
  | timerFire id =>
    simp only [step] at hs
    split at hs
    · simp only [Option.some.injEq] at hs
      subst hs
      exact callback_wf h _ _ _ rfl
        (by show s.stats.completed + (s.stats.failed + 1) = _; omega) rfl
    · cases hs
  | lateSettleOk id =>
    simp only [step] at hs
    split at hs
    · simp only [Option.some.injEq] at hs
      subst hs
      exact callback_wf h _ _ _ rfl
        (by show s.stats.completed + 1 + s.stats.failed = _; omega) rfl
    · cases hs
  | lateSettleErr id =>
    simp only [step] at hs
    split at hs
    · simp only [Option.some.injEq] at hs
      subst hs
      exact callback_wf h _ _ _ rfl
        (by show s.stats.completed + (s.stats.failed + 1) = _; omega) rfl
    · cases hs
  | orphanTimerFire id =>
    simp only [step] at hs
    split at hs
    · simp only [Option.some.injEq] at hs
      subst hs
      exact callback_wf h _ _ _ rfl
        (by show s.stats.completed + (s.stats.failed + 1) = _; omega) rfl
    · cases hs

theorem run_wf : ∀ (es : List Event) {s s' : QueueState}, WF s → run s es = some s' → WF s'
  | [], s, s', h, hr => by
    simp only [run, Option.some.injEq] at hr
    exact hr ▸ h
  | e :: es, s, s', h, hr => by
    simp only [run] at hr
    cases hstep : step s e with
    | none =>
      rw [hstep] at hr
      exact Option.noConfusion hr
    | some s1 =>
      rw [hstep] at hr
      exact run_wf es (step_wf h hstep) hr

/-- `processQueue` touches only the queue, `running`, `stats.pending` and the
in-flight set: the other counters, the settlement log, the configuration and
the submission numbering are untouched. -/
theorem processQueue_frame (s : QueueState) :
    (processQueue s).stats.total = s.stats.total ∧
    (processQueue s).stats.completed = s.stats.completed ∧
    (processQueue s).stats.failed = s.stats.failed ∧
    (processQueue s).log = s.log ∧
    (processQueue s).concurrency = s.concurrency ∧
    (processQueue s).nextId = s.nextId := by
  by_cases hc : s.running ≥ (s.concurrency : Int) ∨ s.queue = []
  · rw [processQueue_of_stuck hc]
    exact ⟨rfl, rfl, rfl, rfl, rfl, rfl⟩
  · push_neg at hc
    cases hq : s.queue with
    | nil => exact absurd hq hc.2
    | cons item rest =>
      rw [processQueue_admits_head hq hc.1]
      exact ⟨rfl, rfl, rfl, rfl, rfl, rfl⟩

/-! ## Poll-sequence lemmas for the idle wait -/

theorem firstIdlePoll_idle :
    ∀ (polls : List QueueState) (k : Nat), firstIdlePoll polls = some k →
      ∃ hk : k < polls.length, isIdle (polls.get ⟨k, hk⟩) = true := by
  intro polls
  induction polls with
  | nil =>
    intro k hk
    simp [firstIdlePoll] at hk
  | cons p ps ih =>
    intro k hk
    by_cases hp : isIdle p
    · simp [firstIdlePoll, hp] at hk
      subst hk
      exact ⟨by simp, by simpa using hp⟩
    · simp [firstIdlePoll, hp] at hk
      obtain ⟨k', hk', rfl⟩ := hk
      obtain ⟨hlt, hidle⟩ := ih k' hk'
      exact ⟨by simpa using Nat.succ_lt_succ hlt, by simpa using hidle⟩

theorem firstIdlePoll_isSome :
    ∀ (polls : List QueueState),
      (∃ i, ∃ hi : i < polls.length, isIdle (polls.get ⟨i, hi⟩) = true) →
      (firstIdlePoll polls).isSome := by
  intro polls
  induction polls with
  | nil =>
    rintro ⟨i, hi, _⟩
    simp at hi
  | cons p ps ih =>
    rintro ⟨i, hi, hidle⟩
    by_cases hp : isIdle p
    · simp [firstIdlePoll, hp]
    · cases i with
      | zero => exact absurd (by simpa using hidle) hp
      | succ j =>
        have hj : j < ps.length := by
          simpa [Nat.succ_lt_succ_iff] using hi
        have := ih ⟨j, hj, by simpa using hidle⟩
        simpa [firstIdlePoll, hp] using this

theorem onIdleWithTimeout_error (polls : List QueueState) (timeout : Nat)
    (h : ∀ i (hi : i < polls.length), 100 * i < timeout →
      isIdle (polls.get ⟨i, hi⟩) = false) :
    onIdleWithTimeout polls timeout = Except.error "Queue idle timeout" := by
  unfold onIdleWithTimeout
  cases hf : firstIdlePoll polls with
  | none => rfl
  | some k =>
    obtain ⟨hk, hidle⟩ := firstIdlePoll_idle polls k hf
    by_cases ht : 100 * k < timeout
    · rw [h k hk ht] at hidle
      exact Bool.noConfusion hidle
    · simp [ht]

/-! ## Sample executions used by the witnesses -/

/-- Limit 2, three default submissions: two admitted, one queued. -/
def sampleEventsA : List Event :=
  [Event.submit none none, Event.submit none none, Event.submit none none]

def sampleStateA : QueueState :=
  (run (initState (some 2) none) sampleEventsA).getD (initState none none)

/-- Limit 1, two submissions, a timeout, the late settlement of the
timed-out task, and the settlement of the task admitted into the freed
slot. -/
def sampleEventsB : List Event :=
  [Event.submit none none, Event.submit none none, Event.timerFire 0,
   Event.lateSettleOk 0, Event.settleOk 1]

def sampleStateB : QueueState :=
  (run (initState (some 1) none) sampleEventsB).getD (initState none none)

/-- Limit 1, three default submissions: one running, two queued. -/
def sampleStateC : QueueState :=
  (run (initState (some 1) none) sampleEventsA).getD (initState none none)

/-- Limit 1, four submissions with priorities 5, 1, 9, 5: the first is
admitted at once, the queue then holds priorities 9, 5, 1 with the two
priority-5 tasks tie-broken by submission order. -/
def sampleEventsD : List Event :=
  [Event.submit (some 5) none, Event.submit (some 1) none, Event.submit (some 9) none,
   Event.submit (some 5) (some 70)]

def sampleStateD : QueueState :=
  (run (initState (some 1) none) sampleEventsD).getD (initState none none)

/-- Limit 1, one submission: a busy scheduler (one task running). -/
def busyState : QueueState :=
  (run (initState (some 1) none) [Event.submit none none]).getD (initState none none)

/-- Limit 1, one submission and one timeout-free queued task. -/
def sampleEventsE : List Event :=
  [Event.submit none none, Event.submit none none]

def sampleStateE : QueueState :=
  (run (initState (some 1) none) sampleEventsE).getD (initState none none)

/-! ## The claims -/

/-- C1: for every concurrency limit and every interleaving of submissions,
settlements and timer firings, the `running` counter never exceeds the
limit: `processQueue` admits only when `running < concurrency`, and every
other transition decrements `running`. -/
theorem running_never_exceeds_limit (c t : Option Nat) (es : List Event) (s : QueueState)
    (h : run (initState c t) es = some s) : s.running ≤ (s.concurrency : Int) :=
  (run_wf es (initState_wf c t) h).run_le

theorem running_never_exceeds_limit_witness :
    sampleStateA.running ≤ (sampleStateA.concurrency : Int) :=
  running_never_exceeds_limit (some 2) none sampleEventsA sampleStateA rfl

/-- C2: at every point reachable by submissions, completions, failures and
timer firings, `total = completed + failed + running + pending` and
`pending` equals the queue length.  The balance survives even the double
bookkeeping of a timed-out task: each extra `completed++`/`failed++` comes
with an extra `running--`. -/
theorem counters_balance (c t : Option Nat) (es : List Event) (s : QueueState)
    (h : run (initState c t) es = some s) :
    s.stats.total = s.stats.completed + s.stats.failed + s.running + s.stats.pending ∧
    s.stats.pending = (s.queue.length : Int) :=
  ⟨(run_wf es (initState_wf c t) h).balance, (run_wf es (initState_wf c t) h).pending_len⟩

theorem counters_balance_witness :
    sampleStateB.stats.total = sampleStateB.stats.completed + sampleStateB.stats.failed +
      sampleStateB.running + sampleStateB.stats.pending ∧
    sampleStateB.stats.pending = (sampleStateB.queue.length : Int) :=
  counters_balance (some 1) none sampleEventsB sampleStateB rfl

/-- C3 counterexample: at the reachable state with limit 1, one running and
two queued tasks, the `getStats` snapshot's `pending` field is 1 — the
`running` counter — not the queue length 2 claimed by the spec; the queue
length is reported as `size`, and the snapshot has no `running` or
`concurrencyLimit` field at all. -/
theorem getStats_pending_not_queue_length :
    ∃ s : QueueState,
      run (initState (some 1) none) sampleEventsA = some s ∧
      (getStats s).pending ≠ (s.queue.length : Int) ∧
      (getStats s).pending = s.running ∧
      (getStats s).size = s.queue.length := by
  refine ⟨sampleStateC, rfl, ?_, rfl, rfl⟩
  decide

/-- C3 (amended): at every reachable state, `getStats` returns the snapshot
`{total, completed, failed, pending, concurrency, size, isPaused}` where
`size` is the queue length (equal to the internal `pending` counter),
`pending` is the `running` counter (p-queue naming, bounded by the limit),
`concurrency` is the limit and `isPaused` is `false`. -/
theorem getStats_snapshot (c t : Option Nat) (es : List Event) (s : QueueState)
    (h : run (initState c t) es = some s) :
    (getStats s).total = s.stats.total ∧
    (getStats s).completed = s.stats.completed ∧
    (getStats s).failed = s.stats.failed ∧
    (getStats s).size = s.queue.length ∧
    ((getStats s).size : Int) = s.stats.pending ∧
    (getStats s).pending = s.running ∧
    (getStats s).pending ≤ ((getStats s).concurrency : Int) ∧
    (getStats s).concurrency = s.concurrency ∧
    (getStats s).isPaused = false := by
  have hw := run_wf es (initState_wf c t) h
  exact ⟨rfl, rfl, rfl, rfl, hw.pending_len.symm, rfl, hw.run_le, rfl, rfl⟩

theorem getStats_snapshot_witness :
    (getStats sampleStateC).pending = sampleStateC.running ∧
    (getStats sampleStateC).size = sampleStateC.queue.length :=
  ⟨(getStats_snapshot (some 1) none sampleEventsA sampleStateC rfl).2.2.2.2.2.1,
   (getStats_snapshot (some 1) none sampleEventsA sampleStateC rfl).2.2.2.1⟩

/-- C4 (code bug): when a task's operation fails before its timeout timer
fires, the timer is NOT disarmed — the `catch` block of `processQueue`
(lines 80–87 of `queue.js`) has no `clearTimeout`, unlike the success path.
Concretely: with limit 1, submit one task and let its operation reject
immediately; the timeout timer is still pending (the `orphanTimerFire` step
is enabled), and when it fires it increments `failed` a second time and
decrements `running` to `-1`, so the single submitted task ends with
`failed = 2` — contradicting the specified "the timer is disarmed and has
no further effect". -/
theorem uncleared_timer_after_failure :
    ∃ s1 s2 : QueueState,
      run (initState (some 1) none) [Event.submit none none, Event.settleErr 0] = some s1 ∧
      step s1 (Event.orphanTimerFire 0) = some s2 ∧
      s1.stats.failed = 1 ∧ s1.running = 0 ∧
      s2.stats.failed = 2 ∧ s2.running = -1 ∧ s2.stats.total = 1 := by
  refine ⟨_, _, rfl, rfl, ?_, ?_, ?_, ?_, ?_⟩ <;> decide

/-- C5: when the timeout timer of an admitted, still-running task fires
before its operation settles, the task's promise is rejected with
`Error('Task timeout')`, `failed` is incremented, `running` is decremented,
and the gate is re-evaluated: with an empty queue the freed slot stays free
(`running` one lower), and otherwise the head of the queue is admitted into
the freed slot (`running` returns to its previous value, the queue shrinks
by one and the admitted task starts with its own timer armed). -/
theorem timer_fire_bookkeeping (c t : Option Nat) (es : List Event) (s : QueueState)
    (id : Nat) (s' : QueueState)
    (h : run (initState c t) es = some s)
    (hstep : step s (Event.timerFire id) = some s') :
    s'.stats.failed = s.stats.failed + 1 ∧
    s'.log = s.log ++ [(id, Settlement.rejected "Task timeout")] ∧
    (s.queue = [] → s'.running = s.running - 1 ∧ s'.queue = []) ∧
    (∀ item rest, s.queue = item :: rest →
      s'.running = s.running ∧ s'.queue = rest ∧
      s'.inflight = setStatus id RunStatus.timedOutRunning s.inflight ++
        [(item.id, RunStatus.armedRunning)]) := by
  have hw := run_wf es (initState_wf c t) h
  simp only [step] at hstep
  split at hstep
  case isFalse => exact Option.noConfusion hstep
  case isTrue hmem =>
  simp only [Option.some.injEq] at hstep
  subst hstep
  set mid : QueueState :=
    { s with
      stats := { s.stats with failed := s.stats.failed + 1 }
      running := s.running - 1
      inflight := setStatus id RunStatus.timedOutRunning s.inflight
      log := s.log ++ [(id, Settlement.rejected "Task timeout")] } with hmid
  refine ⟨(processQueue_frame mid).2.2.1, (processQueue_frame mid).2.2.2.1, ?_, ?_⟩
  · intro hq
    rw [processQueue_of_stuck (Or.inr (show mid.queue = [] from hq))]
    exact ⟨rfl, hq⟩
  · intro item rest hq
    have hlt : mid.running < (mid.concurrency : Int) := by
      show s.running - 1 < (s.concurrency : Int)
      have := hw.run_le
      omega
    rw [processQueue_admits_head (show mid.queue = item :: rest from hq) hlt]
    refine ⟨?_, rfl, rfl⟩
    show s.running - 1 + 1 = s.running
    omega

theorem timer_fire_bookkeeping_witness :
    ∃ s' : QueueState,
      step sampleStateE (Event.timerFire 0) = some s' ∧
      (s'.stats.failed = sampleStateE.stats.failed + 1 ∧
       s'.log = sampleStateE.log ++ [(0, Settlement.rejected "Task timeout")]) := by
  refine ⟨_, rfl, ?_, ?_⟩
  · exact (timer_fire_bookkeeping (some 1) none sampleEventsE sampleStateE 0 _ rfl rfl).1
  · exact (timer_fire_bookkeeping (some 1) none sampleEventsE sampleStateE 0 _ rfl rfl).2.1

/-- C6: the waiting queue of every reachable state is ordered by strictly
descending priority with the submission number breaking ties (the queue is
re-sorted stably on every submission), and admission always removes the
head of the queue — hence a higher-priority task is admitted strictly
before any simultaneously queued lower-priority task, and equal priorities
are admitted in submission order. -/
theorem admission_in_priority_order (c t : Option Nat) (es : List Event) (s : QueueState)
    (h : run (initState c t) es = some s) :
    s.queue.Pairwise keyLt ∧
    (∀ item rest, s.queue = item :: rest → s.running < (s.concurrency : Int) →
      (processQueue s).queue = rest ∧
      (processQueue s).inflight = s.inflight ++ [(item.id, RunStatus.armedRunning)]) := by
  have hw := run_wf es (initState_wf c t) h
  refine ⟨hw.sorted, ?_⟩
  intro item rest hq hr
  rw [processQueue_admits_head hq hr]
  exact ⟨rfl, rfl⟩

theorem admission_in_priority_order_witness :
    sampleStateD.queue.Pairwise keyLt :=
  (admission_in_priority_order (some 1) none sampleEventsD sampleStateD rfl).1

/-- C7: `clear` rejects every queued task's promise with
`Error('Queue cleared')`, empties the queue and resets `stats.pending` to 0,
while the `running` counter, the in-flight tasks and the other counters are
untouched. -/
theorem clear_rejects_queued (s : QueueState) :
    (clear s).queue = [] ∧
    (clear s).stats.pending = 0 ∧
    (clear s).running = s.running ∧
    (clear s).inflight = s.inflight ∧
    (clear s).stats.total = s.stats.total ∧
    (clear s).stats.completed = s.stats.completed ∧
    (clear s).stats.failed = s.stats.failed ∧
    (clear s).log = s.log ++ s.queue.map (fun it => (it.id, Settlement.rejected "Queue cleared")) ∧
    ∀ it ∈ s.queue, (it.id, Settlement.rejected "Queue cleared") ∈ (clear s).log := by
  refine ⟨rfl, rfl, rfl, rfl, rfl, rfl, rfl, rfl, ?_⟩
  intro it hit
  simp only [clear, List.mem_append, List.mem_map]
  exact Or.inr ⟨it, hit, rfl⟩

/-- C8 counterexample: at the reachable state with limit 1, one running and
two queued tasks, `getHealth` reports `isHealthy = true` although the number
of waiting tasks (2) is not strictly below `concurrencyLimit * 2 = 2`: the
health check compares the snapshot's `pending` field, which holds the
`running` counter, not the queue length. -/
theorem isHealthy_despite_backlog :
    ∃ s : QueueState,
      run (initState (some 1) none) sampleEventsA = some s ∧
      (getHealth s).isHealthy = true ∧
      ¬ (s.queue.length < s.concurrency * 2) := by
  refine ⟨sampleStateC, rfl, ?_, ?_⟩ <;> decide

/-- C8 (amended): `isHealthy` is true iff the `running` counter (reported as
`pending` in the snapshot) is strictly below twice the concurrency limit —
and therefore it is true at every reachable state, since
`running ≤ concurrencyLimit` and the limit is positive. -/
theorem isHealthy_iff_running_below_twice_limit (c t : Option Nat) (es : List Event)
    (s : QueueState) (h : run (initState c t) es = some s) :
    ((getHealth s).isHealthy = true ↔ s.running < (s.concurrency : Int) * 2) ∧
    (getHealth s).isHealthy = true := by
  have hw := run_wf es (initState_wf c t) h
  have hiff : (getHealth s).isHealthy = true ↔ s.running < (s.concurrency : Int) * 2 := by
    simp [getHealth, getStats]
  refine ⟨hiff, hiff.mpr ?_⟩
  have h1 := hw.run_le
  have h2 : (1 : Int) ≤ (s.concurrency : Int) := by exact_mod_cast hw.conc_pos
  omega

theorem isHealthy_iff_running_below_twice_limit_witness :
    (getHealth sampleStateC).isHealthy = true :=
  (isHealthy_iff_running_below_twice_limit (some 1) none sampleEventsA sampleStateC rfl).2

/-- C9: `onIdle`'s polling loop resolves exactly at a poll that observes
`running == 0` and an empty queue (and it does resolve whenever some poll
observes that), and when every poll inside `onIdleWithTimeout`'s window
finds the scheduler busy, the race is lost and the future is rejected with
`Error('Queue idle timeout')`. -/
theorem onIdle_resolution (polls : List QueueState) (timeout k : Nat) :
    (firstIdlePoll polls = some k →
      ∃ hk : k < polls.length, isIdle (polls.get ⟨k, hk⟩) = true) ∧
    ((∃ i, ∃ hi : i < polls.length, isIdle (polls.get ⟨i, hi⟩) = true) →
      (firstIdlePoll polls).isSome) ∧
    ((∀ i (hi : i < polls.length), 100 * i < timeout →
        isIdle (polls.get ⟨i, hi⟩) = false) →
      onIdleWithTimeout polls timeout = Except.error "Queue idle timeout") :=
  ⟨firstIdlePoll_idle polls k, firstIdlePoll_isSome polls,
   onIdleWithTimeout_error polls timeout⟩

theorem onIdle_resolution_witness :
    onIdleWithTimeout [busyState, busyState, busyState, busyState, busyState, busyState] 50 =
      Except.error "Queue idle timeout" :=
  (onIdle_resolution [busyState, busyState, busyState, busyState, busyState, busyState]
    50 0).2.2 (by decide)

/-- C10: `resetStats` zeroes the four counters `total`, `completed`,
`failed`, `pending` and leaves everything else — the queue, the `running`
counter, the pending callbacks and the delivered settlements — unchanged;
with a non-empty queue the `pending` counter therefore no longer matches
the queue length. -/
theorem resetStats_frame (s : QueueState) (h : s.queue ≠ []) :
    (resetStats s).stats.total = 0 ∧
    (resetStats s).stats.completed = 0 ∧
    (resetStats s).stats.failed = 0 ∧
    (resetStats s).stats.pending = 0 ∧
    (resetStats s).queue = s.queue ∧
    (resetStats s).running = s.running ∧
    (resetStats s).inflight = s.inflight ∧
    (resetStats s).log = s.log ∧
    (resetStats s).stats.pending ≠ ((resetStats s).queue.length : Int) := by
  refine ⟨rfl, rfl, rfl, rfl, rfl, rfl, rfl, rfl, ?_⟩
  show (0 : Int) ≠ (s.queue.length : Int)
  have hlen : s.queue.length ≠ 0 := by
    cases hq : s.queue with
    | nil => exact absurd hq h
    | cons a l => simp
  omega

theorem resetStats_frame_witness :
    (resetStats sampleStateC).stats.pending ≠ ((resetStats sampleStateC).queue.length : Int) :=
  (resetStats_frame sampleStateC (by decide)).2.2.2.2.2.2.2.2

end NsfwQueue
